import Mathlib

/-!
Shallow embedding of the low-light scene analysis pipeline of
`CameraITS/utils/low_light_utils.py`.

Modelling conventions:
* images are function-backed rasters (`Image`): `px r c` is the BGR pixel at
  row `r`, column `c` of a `rows × cols × 3` numpy array;
* Python floats are idealized as exact rationals (`ℚ`); the module constants
  `0.2`, `0.8`, `1.2` become `2/10`, `8/10`, `12/10`;
* the OpenCV stages that detect contours (`cv2.findContours` together with its
  preprocessing, in `_crop` and `_find_boxes`) run external library code on raw
  pixels; the embedding receives the resulting bounding rectangles from a
  `DetectorModel` oracle, and everything the repository itself computes from
  those rectangles (filtering, maximum-area selection, sorting, rotation
  lookup, traversal reordering, threshold checks) is embedded concretely;
* `cv2.cvtColor(..., cv2.COLOR_BGR2XYZ)` is a per-pixel conversion and is
  passed as a function parameter `toXYZ`; `cvtBGRToXYZPixel` below is the
  concrete OpenCV 8-bit fixed-point conversion, used for concrete evaluations;
* `AssertionError`s raised by the Python code are modelled with
  `Except AnalyzeError`, one constructor per distinct failure, carrying the
  quantities that the corresponding Python message interpolates.
-/

/-- A BGR pixel: the three 8-bit channel samples (blue, green, red). -/
abbrev Pixel := ℕ × ℕ × ℕ

/-- A decoded raster image, function-backed: `px r c` is the pixel at row `r`,
column `c`. Mirrors a numpy `rows × cols × 3` uint8 array. -/
structure Image where
  rows : ℕ
  cols : ℕ
  px : ℕ → ℕ → Pixel

/-- A bounding box `(x, y, w, h)` as returned by `cv2.boundingRect`. -/
structure Box where
  x : ℕ
  y : ℕ
  w : ℕ
  h : ℕ
deriving DecidableEq, Repr

instance : Inhabited Box := ⟨⟨0, 0, 0, 0⟩⟩

/-- Python `int()` applied to a real number: truncation toward zero. -/
def pyInt (q : ℚ) : ℤ := if q < 0 then -((-q).floor) else q.floor

/-- numpy slice `img[top:bottom, left:right]` for nonnegative bounds: indices
are clamped to the array extent and an inverted range yields an empty slab. -/
def sliceImage (img : Image) (top bottom left right : ℕ) : Image :=
  { rows := min bottom img.rows - min top img.rows
    cols := min right img.cols - min left img.cols
    px := fun r c => img.px (min top img.rows + r) (min left img.cols + c) }

/-- `cv2.rotate(img, cv2.ROTATE_90_CLOCKWISE)`: the bottom-left corner of the
input becomes the top-left corner of the output. -/
def rotate90CW (img : Image) : Image :=
  { rows := img.cols
    cols := img.rows
    px := fun i j => img.px (img.rows - 1 - j) i }

/-- `cv2.rotate(img, cv2.ROTATE_90_COUNTERCLOCKWISE)`. -/
def rotate90CCW (img : Image) : Image :=
  { rows := img.cols
    cols := img.rows
    px := fun i j => img.px j (img.cols - 1 - i) }

/-- `cv2.flip(img, 0)`: flip around the horizontal axis (reverse the rows). -/
def flipVertical (img : Image) : Image :=
  { img with px := fun i j => img.px (img.rows - 1 - i) j }

/-- `cv2.flip(img, 1)`: flip around the vertical axis (reverse each row). -/
def flipHorizontal (img : Image) : Image :=
  { img with px := fun i j => img.px i (img.cols - 1 - j) }

/-- `cv2.flip(img, -1)`: flip around both axes. -/
def flipBoth (img : Image) : Image :=
  { img with px := fun i j => img.px (img.rows - 1 - i) (img.cols - 1 - j) }

/-- `_BOX_MIN_SIZE = 20`. -/
def boxMinSize : ℕ := 20

/-- `_BOX_PADDING_RATIO = 0.2`, idealized as the exact rational. -/
def boxPaddingRatio : ℚ := 2 / 10

/-- `_CROP_PADDING = 10`. -/
def cropPadding : ℕ := 10

/-- `_EXPECTED_NUM_OF_BOXES = 20`. -/
def expectedNumOfBoxes : ℕ := 20

/-- `_MAX_ASPECT_RATIO = 1.2`, idealized as the exact rational. -/
def maxAspectRatio : ℚ := 12 / 10

/-- `_MIN_ASPECT_RATIO = 0.8`, idealized as the exact rational. -/
def minAspectRatio : ℚ := 8 / 10

/-- `_LOW_LIGHT_BOOST_AVG_LUMINANCE_THRESH = 90`. -/
def lowLightBoostAvgLuminanceThresh : ℚ := 90

/-- `_LOW_LIGHT_BOOST_AVG_DELTA_LUMINANCE_THRESH = 18`. -/
def lowLightBoostAvgDeltaLuminanceThresh : ℚ := 18

/-- Oracle for the OpenCV contour-detection stages, which run library code the
repository does not contain: `redContourRects img` are the `cv2.boundingRect`s
of the external contours of the red-HSV mask built in `_crop`, in the order
`cv2.findContours` yields them; `boxContourRects img` are the `boundingRect`s
of the external contours found in `_find_boxes` after the
grayscale/blur/adaptive-threshold/erode preprocessing chain. -/
structure DetectorModel where
  redContourRects : Image → List Box
  boxContourRects : Image → List Box

/-- One step of the maximum-area scan in `_crop`: a contour's bounding
rectangle updates the accumulator `(max_area, max_box)` when its aspect ratio
`w / h` lies strictly between `_MIN_ASPECT_RATIO` and `_MAX_ASPECT_RATIO` and
its area exceeds the current maximum (initially 20). -/
def cropStep (acc : ℕ × Option Box) (r : Box) : ℕ × Option Box :=
  let ratio : ℚ := (r.w : ℚ) / (r.h : ℚ)
  if minAspectRatio < ratio ∧ ratio < maxAspectRatio then
    (if acc.1 < r.w * r.h then (r.w * r.h, some r) else acc)
  else acc

/-- The full maximum-area scan of `_crop` over the red-mask contour
rectangles, starting from `max_area = 20`, `max_box = None`. -/
def cropScan (rects : List Box) : ℕ × Option Box :=
  rects.foldl cropStep (20, none)

/-- Resolution of one Python slice index against an axis of length `len`: a
negative index counts from the end (clamped below at 0), a nonnegative index
is clamped above at `len`. -/
def pySliceIndex (len : ℕ) (i : ℤ) : ℕ :=
  if i < 0 then ((len : ℤ) + i).toNat else min i.toNat len

/-- numpy slice `img[top:bottom, left:right]` with full Python index
semantics: each bound may be negative (wrapping to `extent + bound`) and an
inverted resolved range yields an empty slab. -/
def sliceImagePy (img : Image) (top bottom left right : ℤ) : Image :=
  { rows := pySliceIndex img.rows bottom - pySliceIndex img.rows top
    cols := pySliceIndex img.cols right - pySliceIndex img.cols left
    px := fun r c =>
      img.px (pySliceIndex img.rows top + r) (pySliceIndex img.cols left + c) }

/-- `_crop`: if the scan found a box, return the slice
`img[y+10 : y+h-10, x+10 : x+w-10]` — the box shrunk inward by
`_CROP_PADDING = 10` pixels on each side, where a bound that goes negative
wraps Python-style — otherwise return the original image. -/
def _crop (img : Image) (contourRects : List Box) : Image :=
  match (cropScan contourRects).2 with
  | some b =>
      sliceImagePy img ((b.y : ℤ) + cropPadding)
        ((b.y : ℤ) + b.h - cropPadding) ((b.x : ℤ) + cropPadding)
        ((b.x : ℤ) + b.w - cropPadding)
  | none => img

/-- `_find_boxes`: keep a contour's bounding box exactly when `w > 20`,
`h > 20` and the aspect ratio `w / h` lies strictly between 0.8 and 1.2. -/
def _find_boxes (dm : DetectorModel) (image : Image) : List Box :=
  (dm.boxContourRects image).filter fun r =>
    decide (boxMinSize < r.w ∧ boxMinSize < r.h ∧
      minAspectRatio < (r.w : ℚ) / (r.h : ℚ) ∧
      (r.w : ℚ) / (r.h : ℚ) < maxAspectRatio)

/-- Sum, over row `i` of `patch`, of all three channel samples of the
`toXYZ`-converted pixels. `np.mean(box_xyz[1])` averages exactly this slab for
`i = 1`: indexing a `rows × cols × 3` array with `[1]` selects the row at
index 1 (all columns, all three channels), not a color channel. -/
def xyzRowTripleSum (toXYZ : Pixel → Pixel) (patch : Image) (i : ℕ) : ℕ :=
  ((List.range patch.cols).map fun j =>
    (toXYZ (patch.px i j)).1 + (toXYZ (patch.px i j)).2.1 +
      (toXYZ (patch.px i j)).2.2).sum

/-- `_compute_luminance_regions`: for each box, shrink the window inward on
each side by `min(w, h) * _BOX_PADDING_RATIO` (with Python `int()` flooring),
slice the image, convert to XYZ, and record
`int(np.mean(box_xyz[1]))` — the integer mean over the row at index 1 of the
converted patch, across all three channels. -/
def _compute_luminance_regions (toXYZ : Pixel → Pixel) (image : Image)
    (boxes : List Box) : List (Box × ℤ) :=
  boxes.map fun b =>
    let padding : ℚ := (min b.w b.h : ℚ) * boxPaddingRatio
    let left := (pyInt ((b.x : ℚ) + padding)).toNat
    let top := (pyInt ((b.y : ℚ) + padding)).toNat
    let right := (pyInt ((b.x : ℚ) + (b.w : ℚ) - padding)).toNat
    let bottom := (pyInt ((b.y : ℚ) + (b.h : ℚ) - padding)).toNat
    let box := sliceImage image top bottom left right
    (b, pyInt ((xyzRowTripleSum toXYZ box 1 : ℚ) / ((3 * box.cols : ℕ) : ℚ)))

/-- Sum of the luma (Y, channel index 1) samples of the `toXYZ`-converted
pixels over the whole patch. -/
def xyzLumaSum (toXYZ : Pixel → Pixel) (patch : Image) : ℕ :=
  ((List.range patch.rows).map fun i =>
    ((List.range patch.cols).map fun j => (toXYZ (patch.px i j)).2.1).sum).sum

/-- The luminance sampler as the spec describes it (refinement reference):
identical window shrinking, but the recorded value is the integer mean of the
luma (Y) channel over the entire shrunken patch. -/
def computeLuminanceRegionsSpec (toXYZ : Pixel → Pixel) (image : Image)
    (boxes : List Box) : List (Box × ℤ) :=
  boxes.map fun b =>
    let padding : ℚ := (min b.w b.h : ℚ) * boxPaddingRatio
    let left := (pyInt ((b.x : ℚ) + padding)).toNat
    let top := (pyInt ((b.y : ℚ) + padding)).toNat
    let right := (pyInt ((b.x : ℚ) + (b.w : ℚ) - padding)).toNat
    let bottom := (pyInt ((b.y : ℚ) + (b.h : ℚ) - padding)).toNat
    let box := sliceImage image top bottom left right
    (b, pyInt ((xyzLumaSum toXYZ box : ℚ) / ((box.rows * box.cols : ℕ) : ℚ)))

/-- OpenCV's 8-bit `COLOR_BGR2XYZ` conversion of one pixel: the conversion
matrix is scaled by `2 ^ 12`, the products are descaled with round-half-up,
and the result saturates at 255. -/
def cvtBGRToXYZPixel (p : Pixel) : Pixel :=
  let b := p.1
  let g := p.2.1
  let r := p.2.2
  let descale := fun v : ℕ => (v + 2048) / 4096
  let sat := fun v : ℕ => min v 255
  (sat (descale (1689 * r + 1465 * g + 739 * b)),
   sat (descale (871 * r + 2929 * g + 296 * b)),
   sat (descale (79 * r + 488 * g + 3892 * b)))

/-- Insert `a` into a sorted list, walking past every element with a strictly
smaller key and stopping before the first equal-or-larger one. Since
`stableSort` folds from the right, elements occurring earlier in the input are
inserted later and land before equal keys, giving Python's stable order. -/
def insertSorted (lt : α → α → Bool) (a : α) : List α → List α
  | [] => [a]
  | b :: l => if lt b a then b :: insertSorted lt a l else a :: b :: l

/-- Stable ascending sort, modelling Python's stable `sorted`. -/
def stableSort (lt : α → α → Bool) (l : List α) : List α :=
  l.foldr (insertSorted lt) []

/-- `_sort_by_columns`: sort all regions by the box's `x`, then sort by `y`
within the first two elements (left diagnostic column), within each of the
four groups of four that follow (the 4×4 grid columns), and within the last
two elements (right diagnostic column). -/
def _sort_by_columns (regions : List (Box × ℤ)) : List (Box × ℤ) :=
  let colSorted := stableSort (fun a b => decide (a.1.x < b.1.x)) regions
  let byRow := fun l : List (Box × ℤ) =>
    stableSort (fun a b => decide (a.1.y < b.1.y)) l
  byRow (colSorted.take 2)
    ++ byRow ((colSorted.drop 2).take 4)
    ++ byRow ((colSorted.drop 6).take 4)
    ++ byRow ((colSorted.drop 10).take 4)
    ++ byRow ((colSorted.drop 14).take 4)
    ++ byRow (colSorted.drop (colSorted.length - 2))

/-- The four named corners of the chart. -/
inductive Corner
  | topLeft
  | bottomLeft
  | topRight
  | bottomRight
deriving DecidableEq, Repr

/-- The `corner_brightness` mapping of `_correct_image_rotation`, in Python
dict insertion order: positions 2, 5, 14 and 17 of the column-sorted region
list. -/
def cornerBrightness (regions : List (Box × ℤ)) : List (Corner × ℤ) :=
  [(Corner.topLeft, (regions.getD 2 default).2),
   (Corner.bottomLeft, (regions.getD 5 default).2),
   (Corner.topRight, (regions.getD 14 default).2),
   (Corner.bottomRight, (regions.getD 17 default).2)]

/-- One step of the darkest-corner scan: an entry replaces the accumulator
exactly when its luminance is strictly smaller (the `('', inf)` sentinel,
here `none`, is always replaced). -/
def darkestStep (acc : Option (Corner × ℤ)) (p : Corner × ℤ) :
    Option (Corner × ℤ) :=
  match acc with
  | none => some p
  | some q => if p.2 < q.2 then some p else some q

/-- The darkest-corner scan: the first corner attaining the minimum wins. -/
def darkestCorner (cb : List (Corner × ℤ)) : Option (Corner × ℤ) :=
  cb.foldl darkestStep none

/-- One step of the brightest-corner scan: an entry replaces the accumulator
exactly when its luminance is strictly larger (the `('', -inf)` sentinel,
here `none`, is always replaced). -/
def brightestStep (acc : Option (Corner × ℤ)) (p : Corner × ℤ) :
    Option (Corner × ℤ) :=
  match acc with
  | none => some p
  | some q => if q.2 < p.2 then some p else some q

/-- The brightest-corner scan: the first corner attaining the maximum wins. -/
def brightestCorner (cb : List (Corner × ℤ)) : Option (Corner × ℤ) :=
  cb.foldl brightestStep none

/-- The failure conditions of the pipeline, one constructor per distinct
`AssertionError` raised by `analyze_low_light_scene_capture` and
`_correct_image_rotation`, carrying the quantities the Python message
interpolates. -/
inductive AnalyzeError
  | detectionCount (actual expected : ℕ)
  | ambiguousCorners
  | brightestNotFound
  | avgLuminance (actual threshold : ℚ)
  | deltaLuminance (actual threshold : ℚ)
deriving DecidableEq, Repr

/-- `_correct_image_rotation`: fail when the darkest and brightest corner
scans return the same `(corner, luminance)` pair; otherwise dispatch on the
(darkest, brightest) corner pair through the eight-case rotation table, with
every uncovered pair a `brightest square not found` failure. The Python
`if/elif` chain has no branch for an unnamed darkest corner (the `('', inf)`
sentinel), in which case the image falls through unchanged. -/
def _correct_image_rotation (img : Image) (regions : List (Box × ℤ)) :
    Except AnalyzeError Image :=
  let cb := cornerBrightness regions
  if darkestCorner cb = brightestCorner cb then .error .ambiguousCorners
  else
    match darkestCorner cb, brightestCorner cb with
    | some (.topLeft, _), some (.bottomLeft, _) =>
        .ok (flipVertical (rotate90CW img))
    | some (.topLeft, _), some (.topRight, _) => .ok (flipBoth img)
    | some (.topLeft, _), _ => .error .brightestNotFound
    | some (.bottomLeft, _), some (.topLeft, _) => .ok (rotate90CCW img)
    | some (.bottomLeft, _), some (.bottomRight, _) => .ok (flipHorizontal img)
    | some (.bottomLeft, _), _ => .error .brightestNotFound
    | some (.topRight, _), some (.topLeft, _) => .ok (flipVertical img)
    | some (.topRight, _), some (.bottomRight, _) => .ok (rotate90CW img)
    | some (.topRight, _), _ => .error .brightestNotFound
    | some (.bottomRight, _), some (.bottomLeft, _) => .ok img
    | some (.bottomRight, _), some (.topRight, _) =>
        .ok (flipHorizontal (rotate90CW img))
    | some (.bottomRight, _), _ => .error .brightestNotFound
    | none, _ => .ok img

/-- `_compute_avg`: the mean luminance of the first 6 entries. -/
def _compute_avg (results : List (Box × ℤ)) : ℚ :=
  let luminanceValues := (results.take 6).map Prod.snd
  ((luminanceValues.sum : ℤ) : ℚ) / (luminanceValues.length : ℚ)

/-- `_compute_avg_delta_of_successive_boxes`: the mean of the successive
deltas of the first 6 entries' luminances. -/
def _compute_avg_delta_of_successive_boxes (results : List (Box × ℤ)) : ℚ :=
  let luminanceValues := (results.take 6).map Prod.snd
  let delta := (List.range (luminanceValues.length - 1)).map fun i =>
    luminanceValues.getD (i + 1) 0 - luminanceValues.getD i 0
  ((delta.sum : ℤ) : ℚ) / (delta.length : ℚ)

/-- The fixed 16-element traversal permutation (`hilbert_ordered` in
`analyze_low_light_scene_capture`) applied to the column-sorted regions. -/
def hilbertOrder (s : List (Box × ℤ)) : List (Box × ℤ) :=
  [s.getD 17 default, s.getD 13 default, s.getD 12 default, s.getD 16 default,
   s.getD 15 default, s.getD 14 default, s.getD 10 default, s.getD 11 default,
   s.getD 7 default, s.getD 6 default, s.getD 2 default, s.getD 3 default,
   s.getD 4 default, s.getD 8 default, s.getD 9 default, s.getD 5 default]

/-- The cropped frame the pipeline works on: `img = _crop(img)`. -/
def croppedImage (dm : DetectorModel) (img : Image) : Image :=
  _crop img (dm.redContourRects img)

/-- The boxes the pipeline detects: `boxes = _find_boxes(img)` on the cropped
frame. -/
def detectedBoxes (dm : DetectorModel) (img : Image) : List Box :=
  _find_boxes dm (croppedImage dm img)

/-- The column-sorted regions sampled from the cropped frame, fed to
`_correct_image_rotation`. -/
def firstSortedRegions (dm : DetectorModel) (toXYZ : Pixel → Pixel)
    (img : Image) : List (Box × ℤ) :=
  _sort_by_columns
    (_compute_luminance_regions toXYZ (croppedImage dm img)
      (detectedBoxes dm img))

/-- The traversal-ordered regions used for the final metrics: the original
(pre-rotation) boxes re-sampled on the transformed frame `img2`, column-sorted
and permuted. -/
def finalHilbert (dm : DetectorModel) (toXYZ : Pixel → Pixel)
    (img img2 : Image) : List (Box × ℤ) :=
  hilbertOrder
    (_sort_by_columns
      (_compute_luminance_regions toXYZ img2 (detectedBoxes dm img)))

/-- The mean luminance the final threshold check compares. -/
def finalAvg (dm : DetectorModel) (toXYZ : Pixel → Pixel)
    (img img2 : Image) : ℚ :=
  _compute_avg (finalHilbert dm toXYZ img img2)

/-- The mean successive delta the final threshold check compares. -/
def finalDeltaAvg (dm : DetectorModel) (toXYZ : Pixel → Pixel)
    (img img2 : Image) : ℚ :=
  _compute_avg_delta_of_successive_boxes (finalHilbert dm toXYZ img img2)

/-- `analyze_low_light_scene_capture`: crop, detect boxes, enforce the
20-box invariant, sample luminance, column-sort, correct the orientation,
re-sample the same boxes on the transformed frame, reorder along the fixed
traversal, and compare the two aggregate metrics against the thresholds
(file writes and plots are side effects with no bearing on the result and are
not modelled). -/
def analyze_low_light_scene_capture (dm : DetectorModel)
    (toXYZ : Pixel → Pixel) (img : Image)
    (avgLuminanceThreshold avgDeltaLuminanceThreshold : ℚ) :
    Except AnalyzeError Unit :=
  let img1 := _crop img (dm.redContourRects img)
  let boxes := _find_boxes dm img1
  if boxes.length ≠ expectedNumOfBoxes then
    .error (.detectionCount boxes.length expectedNumOfBoxes)
  else
    let regions := _compute_luminance_regions toXYZ img1 boxes
    let sortedRegions := _sort_by_columns regions
    match _correct_image_rotation img1 sortedRegions with
    | .error e => .error e
    | .ok img2 =>
      let regions2 := _compute_luminance_regions toXYZ img2 boxes
      let sortedRegions2 := _sort_by_columns regions2
      let hb := hilbertOrder sortedRegions2
      let avg := _compute_avg hb
      let deltaAvg := _compute_avg_delta_of_successive_boxes hb
      if avg < avgLuminanceThreshold then
        .error (.avgLuminance avg avgLuminanceThreshold)
      else if deltaAvg < avgDeltaLuminanceThreshold then
        .error (.deltaLuminance deltaAvg avgDeltaLuminanceThreshold)
      else .ok ()

/-- Modelled from the spec (§4.3: after the transform, "regions must be
re-detected and re-sampled (coordinates are no longer valid) — this is a
recomputation, not an in-place coordinate transform"): identical to
`analyze_low_light_scene_capture` except that after orientation correction the
boxes are re-detected from the transformed frame before luminance
re-sampling. -/
def analyzeSpecRedetect (dm : DetectorModel) (toXYZ : Pixel → Pixel)
    (img : Image) (avgLuminanceThreshold avgDeltaLuminanceThreshold : ℚ) :
    Except AnalyzeError Unit :=
  let img1 := _crop img (dm.redContourRects img)
  let boxes := _find_boxes dm img1
  if boxes.length ≠ expectedNumOfBoxes then
    .error (.detectionCount boxes.length expectedNumOfBoxes)
  else
    let regions := _compute_luminance_regions toXYZ img1 boxes
    let sortedRegions := _sort_by_columns regions
    match _correct_image_rotation img1 sortedRegions with
    | .error e => .error e
    | .ok img2 =>
      let boxes2 := _find_boxes dm img2
      let regions2 := _compute_luminance_regions toXYZ img2 boxes2
      let sortedRegions2 := _sort_by_columns regions2
      let hb := hilbertOrder sortedRegions2
      let avg := _compute_avg hb
      let deltaAvg := _compute_avg_delta_of_successive_boxes hb
      if avg < avgLuminanceThreshold then
        .error (.avgLuminance avg avgLuminanceThreshold)
      else if deltaAvg < avgDeltaLuminanceThreshold then
        .error (.deltaLuminance deltaAvg avgDeltaLuminanceThreshold)
      else .ok ()

/-- The eight (darkest, brightest) corner pairs covered by the rotation
dispatch of `_correct_image_rotation`. -/
def rotationCovered : Corner → Corner → Bool
  | .topLeft, .bottomLeft => true
  | .topLeft, .topRight => true
  | .bottomLeft, .topLeft => true
  | .bottomLeft, .bottomRight => true
  | .topRight, .topLeft => true
  | .topRight, .bottomRight => true
  | .bottomRight, .bottomLeft => true
  | .bottomRight, .topRight => true
  | _, _ => false

/-- Aspect-ratio acceptance window shared by `_crop` and `_find_boxes`:
`w / h` strictly between `_MIN_ASPECT_RATIO` and `_MAX_ASPECT_RATIO`. -/
def ratioOk (r : Box) : Prop :=
  minAspectRatio < (r.w : ℚ) / (r.h : ℚ) ∧ (r.w : ℚ) / (r.h : ℚ) < maxAspectRatio

instance (r : Box) : Decidable (ratioOk r) := by unfold ratioOk; infer_instance

/-- Gray levels of the concrete test chart `imgEx`, indexed by the column band
`c / 35` and the row band `r / 35`. -/
def lumTable (cb rb : ℕ) : ℕ :=
  if cb = 1 ∧ rb = 0 then 50
  else if cb = 1 ∧ rb = 3 then 60
  else if cb = 4 ∧ rb = 0 then 10
  else if cb = 4 ∧ rb = 3 then 200
  else if cb = 4 ∧ rb = 1 then 160
  else if cb = 5 ∧ rb = 1 then 60
  else if cb = 5 ∧ rb = 2 then 100
  else 0

/-- A concrete 200×240 grayscale frame, constant on 35×35 bands. -/
def imgEx : Image :=
  { rows := 200
    cols := 240
    px := fun r c => let v := lumTable (c / 35) (r / 35); (v, v, v) }

/-- A column of 30×30 boxes at abscissa `x`, one per listed ordinate. -/
def mkColumn (x : ℕ) (ys : List ℕ) : List Box :=
  ys.map fun y => ⟨x, y, 30, 30⟩

/-- Twenty 30×30 boxes laid out like the low-light chart on `imgEx`: two
diagnostic columns flanking a 4×4 grid. -/
def boxesB0 : List Box :=
  mkColumn 0 [35, 105] ++ mkColumn 35 [0, 35, 70, 105]
    ++ mkColumn 70 [0, 35, 70, 105] ++ mkColumn 105 [0, 35, 70, 105]
    ++ mkColumn 140 [0, 35, 70, 105] ++ mkColumn 175 [35, 105]

/-- Twenty 30×30 boxes laid out like the chart as it appears on the rotated
frame `rotate90CW imgEx`. -/
def boxesB1 : List Box :=
  mkColumn 0 [133, 189] ++ mkColumn 33 [133, 140, 168, 189]
    ++ mkColumn 66 [133, 140, 168, 189] ++ mkColumn 99 [133, 140, 168, 189]
    ++ mkColumn 132 [133, 140, 168, 189] ++ mkColumn 165 [133, 189]

/-- Concrete detector oracle for `imgEx`: no red-mask contours (so `_crop`
falls back to the original image), and box contours `boxesB0` on the 200-row
original frame but `boxesB1` on the 240-row rotated frame. -/
def dmEx : DetectorModel :=
  { redContourRects := fun _ => []
    boxContourRects := fun img => if img.rows = 240 then boxesB1 else boxesB0 }

/-- An identity stand-in for the per-pixel color conversion, used when a
concrete conversion-independent pipeline run is evaluated. -/
def toXYZId : Pixel → Pixel := fun p => p

/-- A 25×25 frame that is white on row 6 and black elsewhere. -/
def imgC3 : Image :=
  { rows := 25
    cols := 25
    px := fun r _ => if r = 6 then (255, 255, 255) else (0, 0, 0) }

/-- The single sampling region used on `imgC3`. -/
def boxC3 : Box := ⟨0, 0, 25, 25⟩

/-- A placeholder box for region lists whose coordinates are irrelevant. -/
def dummyBox : Box := ⟨0, 0, 0, 0⟩

/-- A 20-element column-sorted region list whose 16 interior regions carry
luminances 0..15 in traversal order (position 17 carries 0, position 13
carries 1, and so on along the fixed permutation). -/
def regionsC8 : List (Box × ℤ) :=
  [(dummyBox, 99), (dummyBox, 99), (dummyBox, 10), (dummyBox, 11),
   (dummyBox, 12), (dummyBox, 15), (dummyBox, 9), (dummyBox, 8),
   (dummyBox, 13), (dummyBox, 14), (dummyBox, 6), (dummyBox, 7),
   (dummyBox, 2), (dummyBox, 1), (dummyBox, 5), (dummyBox, 4),
   (dummyBox, 3), (dummyBox, 0), (dummyBox, 99), (dummyBox, 99)]

/-- Detector oracle producing a single 48×40 contour rectangle, whose aspect
ratio sits exactly on the 1.2 boundary. -/
def dmBoundary : DetectorModel :=
  { redContourRects := fun _ => []
    boxContourRects := fun _ => [⟨0, 0, 48, 40⟩] }

/-- A minimal 1×1 black frame. -/
def imgTiny : Image := { rows := 1, cols := 1, px := fun _ _ => (0, 0, 0) }

/-- Detector oracle that finds no contours at all. -/
def dmEmpty : DetectorModel :=
  { redContourRects := fun _ => []
    boxContourRects := fun _ => [] }

/-- A 20-element region list with luminances `v2, v5, v14, v17` at the four
corner positions of the column-sorted order and 0 elsewhere. -/
def mkRegions (v2 v5 v14 v17 : ℤ) : List (Box × ℤ) :=
  (List.range 20).map fun i =>
    (dummyBox,
      if i = 2 then v2 else if i = 5 then v5
      else if i = 14 then v14 else if i = 17 then v17 else 0)

/-- Red-mask contour rectangles exercising the `_crop` maximum-area scan: one
rejected by aspect ratio, two accepted with distinct areas. -/
def rectsC10 : List Box := [⟨0, 0, 5, 30⟩, ⟨2, 3, 40, 40⟩, ⟨1, 1, 30, 30⟩]

/-- Claim C5 (counterexample): the 48×40 rectangle satisfies the claim's
acceptance condition — width and height exceed 20 and the aspect ratio 1.2
lies in the closed interval [0.8, 1.2] — yet `_find_boxes` excludes it. -/
theorem find_boxes_closed_interval_cex :
    boxMinSize < 48 ∧ boxMinSize < 40 ∧
      minAspectRatio ≤ (48 : ℚ) / 40 ∧ (48 : ℚ) / 40 ≤ maxAspectRatio ∧
      (⟨0, 0, 48, 40⟩ : Box) ∈ dmBoundary.boxContourRects imgTiny ∧
      _find_boxes dmBoundary imgTiny = [] := by
  refine ⟨by decide, by decide, by with_unfolding_all decide,
    by with_unfolding_all decide, by decide, by with_unfolding_all decide⟩

/-- Claim C5 (amended): the region locator accepts a bounding box exactly when
its width and height both exceed the minimum pixel size (20) and its aspect
ratio `w / h` lies within the open interval (0.8, 1.2); every box failing
either condition is excluded from the returned list. -/
theorem find_boxes_accepts_iff (dm : DetectorModel) (img : Image) (b : Box) :
    b ∈ _find_boxes dm img ↔
      b ∈ dm.boxContourRects img ∧ boxMinSize < b.w ∧ boxMinSize < b.h ∧
        minAspectRatio < (b.w : ℚ) / (b.h : ℚ) ∧
        (b.w : ℚ) / (b.h : ℚ) < maxAspectRatio := by
  simp [_find_boxes, List.mem_filter]

/-- Claim C8: on a column-sorted 20-element region list whose traversal order
reads 0, 1, ..., 15, the evaluator's mean of the first 6 traversal entries is
(0+1+2+3+4+5)/6 = 5/2 and its mean of the 5 successive deltas is 1. -/
theorem reorder_synthetic_grid (s : List (Box × ℤ)) (h20 : s.length = 20)
    (hmap : (hilbertOrder s).map Prod.snd =
      [0, 1, 2, 3, 4, 5, 6, 7, 8, 9, 10, 11, 12, 13, 14, 15]) :
    _compute_avg (hilbertOrder s) = 5 / 2 ∧
    _compute_avg_delta_of_successive_boxes (hilbertOrder s) = 1 := by
  have h6 : ((hilbertOrder s).take 6).map Prod.snd = [0, 1, 2, 3, 4, 5] := by
    rw [List.map_take, hmap]
    decide
  constructor
  · simp only [_compute_avg]
    rw [h6]
    with_unfolding_all decide
  · simp only [_compute_avg_delta_of_successive_boxes]
    rw [h6]
    with_unfolding_all decide

/-- Witness for C8 at a concrete 20-element list. -/
theorem reorder_synthetic_grid_witness :
    _compute_avg (hilbertOrder regionsC8) = 5 / 2 ∧
    _compute_avg_delta_of_successive_boxes (hilbertOrder regionsC8) = 1 :=
  reorder_synthetic_grid regionsC8 (by decide) (by decide)

/-- Claim C7: when the darkest corner of the column-sorted region list is the
bottom-right one and the brightest is the bottom-left one (canonical
orientation), `_correct_image_rotation` performs no transform and returns its
input frame unchanged. -/
theorem correct_image_rotation_canonical_identity (img : Image)
    (regions : List (Box × ℤ)) (h20 : regions.length = 20) (ld lb : ℤ)
    (hd : darkestCorner (cornerBrightness regions) =
      some (Corner.bottomRight, ld))
    (hb : brightestCorner (cornerBrightness regions) =
      some (Corner.bottomLeft, lb)) :
    _correct_image_rotation img regions = .ok img := by
  simp [_correct_image_rotation, hd, hb]

/-- Witness for C7 at a concrete canonical-orientation region list. -/
theorem correct_image_rotation_canonical_identity_witness :
    _correct_image_rotation imgTiny (mkRegions 100 200 150 10) = .ok imgTiny :=
  correct_image_rotation_canonical_identity imgTiny (mkRegions 100 200 150 10)
    (by decide) 10 200 (by decide) (by decide)

/-- Claim C3 (code evaluation at the failing input): on the 25×25 frame that
is white exactly on row 6 and black elsewhere, the sampler records 250 for the
25×25 region — the integer mean over the row at index 1 of the XYZ patch
across all three channels — whereas the integer mean of the luma (Y) channel
over the entire shrunken patch, which the claim describes, is 17. -/
theorem compute_luminance_row_not_luma_channel :
    _compute_luminance_regions cvtBGRToXYZPixel imgC3 [boxC3] =
      [(boxC3, 250)] ∧
    computeLuminanceRegionsSpec cvtBGRToXYZPixel imgC3 [boxC3] =
      [(boxC3, 17)] ∧
    (250 : ℤ) ≠ 17 := by
  refine ⟨by with_unfolding_all decide, by with_unfolding_all decide, by decide⟩

/-- Claim C4 (code evaluation at the failing input): on the concrete frame
`imgEx` with detector `dmEx`, the pipeline takes the rotate-90°-clockwise
branch; re-detecting boxes on the transformed frame would yield `boxesB1`, a
different list from the pre-rotation `boxesB0`, but
`analyze_low_light_scene_capture` re-samples the stale `boxesB0` coordinates
on the transformed frame and fails the luminance threshold with mean 0, while
the spec-described re-detecting pipeline accepts the same frame. -/
theorem analyze_reuses_stale_boxes_after_rotation :
    detectedBoxes dmEx imgEx = boxesB0 ∧
    _correct_image_rotation (croppedImage dmEx imgEx)
        (firstSortedRegions dmEx toXYZId imgEx) =
      .ok (rotate90CW (croppedImage dmEx imgEx)) ∧
    _find_boxes dmEx (rotate90CW (croppedImage dmEx imgEx)) = boxesB1 ∧
    boxesB1 ≠ boxesB0 ∧
    analyze_low_light_scene_capture dmEx toXYZId imgEx
        lowLightBoostAvgLuminanceThresh lowLightBoostAvgDeltaLuminanceThresh =
      .error (.avgLuminance 0 lowLightBoostAvgLuminanceThresh) ∧
    analyzeSpecRedetect dmEx toXYZId imgEx
        lowLightBoostAvgLuminanceThresh lowLightBoostAvgDeltaLuminanceThresh =
      .ok () := by
  refine ⟨by with_unfolding_all decide, by with_unfolding_all rfl,
    by with_unfolding_all decide, by decide, by with_unfolding_all rfl,
    by with_unfolding_all rfl⟩

/-- Claim C9: the luminance sampler is deterministic and depends only on the
pixel content of the frame and the region list: frames with equal extents and
pointwise-equal pixels yield equal integer results, and repeating the
computation on the same inputs yields the same results. -/
theorem compute_luminance_regions_deterministic (toXYZ : Pixel → Pixel)
    (img img' : Image) (boxes : List Box)
    (hr : img.rows = img'.rows) (hc : img.cols = img'.cols)
    (hpx : ∀ r c, img.px r c = img'.px r c) :
    _compute_luminance_regions toXYZ img boxes =
      _compute_luminance_regions toXYZ img' boxes ∧
    _compute_luminance_regions toXYZ img boxes =
      _compute_luminance_regions toXYZ img boxes := by
  have himg : img = img' := by
    cases img
    cases img'
    simp_all
    funext r c
    exact hpx r c
  rw [himg]
  exact ⟨rfl, rfl⟩

/-- Witness for C9 on a concrete frame given twice through syntactically
different but pointwise-equal pixel functions. -/
theorem compute_luminance_regions_deterministic_witness :
    _compute_luminance_regions toXYZId imgC3 [boxC3] =
      _compute_luminance_regions toXYZId
        { rows := 25, cols := 25
          px := fun r c =>
            if r = 6 then (255, 255, 255) else (0 * c, 0, 0) } [boxC3] :=
  (compute_luminance_regions_deterministic toXYZId imgC3
    { rows := 25, cols := 25
      px := fun r c => if r = 6 then (255, 255, 255) else (0 * c, 0, 0) }
    [boxC3] rfl rfl (fun r c => by by_cases h : r = 6 <;> simp [imgC3, h])).1

/-- A fold whose step keeps the accumulator or replaces it by the new element
produces a value drawn from the list or the initial accumulator. -/
theorem pick_foldl_mem {α : Type} (g : Option α → α → Option α)
    (hg : ∀ acc x, g acc x = acc ∨ g acc x = some x) (l : List α) :
    ∀ (acc : Option α) (p : α), l.foldl g acc = some p → p ∈ l ∨ acc = some p := by
  induction l with
  | nil =>
    intro acc p h
    exact Or.inr h
  | cons x xs ih =>
    intro acc p h
    rw [List.foldl_cons] at h
    rcases ih (g acc x) p h with hmem | hacc
    · exact Or.inl (List.mem_cons_of_mem _ hmem)
    · rcases hg acc x with h1 | h1
      · exact Or.inr (h1 ▸ hacc)
      · rw [h1] at hacc
        injection hacc with h2
        exact Or.inl (h2 ▸ List.mem_cons_self x xs)

/-- A fold whose step never produces `none` yields `some` on any nonempty
list. -/
theorem pick_foldl_ne_none {α : Type} (g : Option α → α → Option α)
    (hg : ∀ acc x, g acc x ≠ none) (l : List α) :
    ∀ (acc : Option α), l ≠ [] → l.foldl g acc ≠ none := by
  induction l with
  | nil =>
    intro acc h
    exact absurd rfl h
  | cons x xs ih =>
    intro acc _
    rw [List.foldl_cons]
    rcases xs with _ | ⟨y, ys⟩
    · simpa using hg acc x
    · exact ih (g acc x) (by simp)

/-- The darkest-corner step keeps or replaces the accumulator. -/
theorem darkestStep_or (acc : Option (Corner × ℤ)) (x : Corner × ℤ) :
    darkestStep acc x = acc ∨ darkestStep acc x = some x := by
  cases acc with
  | none => exact Or.inr rfl
  | some q =>
    by_cases h : x.2 < q.2
    · exact Or.inr (by simp [darkestStep, h])
    · exact Or.inl (by simp [darkestStep, h])

/-- The brightest-corner step keeps or replaces the accumulator. -/
theorem brightestStep_or (acc : Option (Corner × ℤ)) (x : Corner × ℤ) :
    brightestStep acc x = acc ∨ brightestStep acc x = some x := by
  cases acc with
  | none => exact Or.inr rfl
  | some q =>
    by_cases h : q.2 < x.2
    · exact Or.inr (by simp [brightestStep, h])
    · exact Or.inl (by simp [brightestStep, h])

/-- The darkest-corner step never yields `none`. -/
theorem darkestStep_ne_none (acc : Option (Corner × ℤ)) (x : Corner × ℤ) :
    darkestStep acc x ≠ none := by
  cases acc with
  | none => exact fun h => nomatch h
  | some q =>
    by_cases h : x.2 < q.2 <;> simp [darkestStep, h]

/-- The brightest-corner step never yields `none`. -/
theorem brightestStep_ne_none (acc : Option (Corner × ℤ)) (x : Corner × ℤ) :
    brightestStep acc x ≠ none := by
  cases acc with
  | none => exact fun h => nomatch h
  | some q =>
    by_cases h : q.2 < x.2 <;> simp [brightestStep, h]

/-- If the darkest-corner and brightest-corner scans name the same corner,
they return the same (corner, luminance) pair, since each corner occurs
exactly once in the `corner_brightness` map. -/
theorem darkest_eq_brightest_of_same_corner (regions : List (Box × ℤ))
    (h : (darkestCorner (cornerBrightness regions)).map Prod.fst =
      (brightestCorner (cornerBrightness regions)).map Prod.fst) :
    darkestCorner (cornerBrightness regions) =
      brightestCorner (cornerBrightness regions) := by
  rcases hdk : darkestCorner (cornerBrightness regions) with _ | p
  · exact absurd hdk
      (pick_foldl_ne_none darkestStep darkestStep_ne_none _ none (by simp [cornerBrightness]))
  rcases hbk : brightestCorner (cornerBrightness regions) with _ | q
  · exact absurd hbk
      (pick_foldl_ne_none brightestStep brightestStep_ne_none _ none (by simp [cornerBrightness]))
  have hp : p ∈ cornerBrightness regions := by
    rcases pick_foldl_mem darkestStep darkestStep_or _ none p hdk with h1 | h1
    · exact h1
    · exact nomatch h1
  have hq : q ∈ cornerBrightness regions := by
    rcases pick_foldl_mem brightestStep brightestStep_or _ none q hbk with h1 | h1
    · exact h1
    · exact nomatch h1
  rw [hdk, hbk] at h
  simp only [Option.map_some'] at h
  injection h with hfst
  simp only [cornerBrightness, List.mem_cons, List.mem_singleton,
    List.not_mem_nil, or_false] at hp hq
  rcases hp with hp | hp | hp | hp <;> rcases hq with hq | hq | hq | hq <;>
    simp_all

/-- Claim C6: on a 20-element column-sorted region list, the orientation
corrector raises a hard failure when the darkest and brightest corner
positions coincide, and raises the brightest-square-not-found hard failure on
every pair of distinct corners not covered by the eight-entry rotation
lookup. -/
theorem correct_image_rotation_failure_modes (img : Image)
    (regions : List (Box × ℤ)) (h20 : regions.length = 20) :
    ((darkestCorner (cornerBrightness regions)).map Prod.fst =
        (brightestCorner (cornerBrightness regions)).map Prod.fst →
      _correct_image_rotation img regions = .error .ambiguousCorners) ∧
    (∀ dc dl bc bl,
      darkestCorner (cornerBrightness regions) = some (dc, dl) →
      brightestCorner (cornerBrightness regions) = some (bc, bl) →
      dc ≠ bc → rotationCovered dc bc = false →
      _correct_image_rotation img regions = .error .brightestNotFound) := by
  constructor
  · intro h
    have heq := darkest_eq_brightest_of_same_corner regions h
    simp [_correct_image_rotation, heq]
  · intro dc dl bc bl hd hb hne hcov
    cases dc <;> cases bc <;>
      first
        | exact absurd rfl hne
        | exact absurd hcov (by decide)
        | (simp [_correct_image_rotation, hd, hb])

/-- Witness for C6: an all-equal corner list triggers the ambiguity failure,
and a darkest-top-left/brightest-bottom-right list (a diagonal pair, absent
from the lookup) triggers the brightest-not-found failure. -/
theorem correct_image_rotation_failure_modes_witness :
    _correct_image_rotation imgTiny (mkRegions 7 7 7 7) =
      .error .ambiguousCorners ∧
    _correct_image_rotation imgTiny (mkRegions 0 5 5 9) =
      .error .brightestNotFound := by
  constructor
  · exact (correct_image_rotation_failure_modes imgTiny (mkRegions 7 7 7 7)
      (by decide)).1 (by decide)
  · exact (correct_image_rotation_failure_modes imgTiny (mkRegions 0 5 5 9)
      (by decide)).2 Corner.topLeft 0 Corner.bottomRight 9 (by decide)
      (by decide) (by decide) (by decide)

/-- Invariant of the `_crop` maximum-area fold: the running maximum never
decreases and stays at least 20; the tracked box, when present, passed the
aspect-ratio test, has area above 20 equal to the running maximum, and came
from the scanned rectangles or the initial accumulator; and every scanned
rectangle passing the aspect-ratio test has area at most the running
maximum. -/
theorem cropScan_fold_invariant (rects : List Box) :
    ∀ (a : ℕ) (ob : Option Box), 20 ≤ a → (ob = none → a = 20) →
      (∀ b, ob = some b → ratioOk b ∧ 20 < b.w * b.h ∧ a = b.w * b.h) →
      a ≤ (rects.foldl cropStep (a, ob)).1 ∧
      ((rects.foldl cropStep (a, ob)).2 = none →
        ob = none ∧ (rects.foldl cropStep (a, ob)).1 = 20) ∧
      (∀ b, (rects.foldl cropStep (a, ob)).2 = some b →
        ratioOk b ∧ 20 < b.w * b.h ∧
          (rects.foldl cropStep (a, ob)).1 = b.w * b.h ∧
          (b ∈ rects ∨ ob = some b)) ∧
      (∀ r ∈ rects, ratioOk r → r.w * r.h ≤ (rects.foldl cropStep (a, ob)).1) := by
  induction rects with
  | nil =>
    intro a ob ha hn hs
    simp only [List.foldl_nil]
    refine ⟨le_refl a, fun h => ⟨h, hn h⟩, fun b hb => ?_,
      fun r hr => absurd hr (List.not_mem_nil r)⟩
    obtain ⟨h1, h2, h3⟩ := hs b hb
    exact ⟨h1, h2, h3, Or.inr hb⟩
  | cons r rs ih =>
    intro a ob ha hn hs
    rw [List.foldl_cons]
    by_cases hr : ratioOk r
    · have hcond : minAspectRatio < (r.w : ℚ) / (r.h : ℚ) ∧
          (r.w : ℚ) / (r.h : ℚ) < maxAspectRatio := hr
      by_cases harea : a < r.w * r.h
      · have hstep : cropStep (a, ob) r = (r.w * r.h, some r) := by
          simp only [cropStep, if_pos hcond]
          rw [if_pos harea]
        rw [hstep]
        have h20 : 20 < r.w * r.h := lt_of_le_of_lt ha harea
        obtain ⟨m1, m2, m3, m4⟩ := ih (r.w * r.h) (some r) (le_of_lt h20)
          (fun h => nomatch h)
          (fun b hb => by
            injection hb with hb
            exact hb ▸ ⟨hr, h20, rfl⟩)
        refine ⟨le_trans (le_of_lt harea) m1, ?_, ?_, ?_⟩
        · intro h
          exact absurd (m2 h).1 (by simp)
        · intro b hb
          obtain ⟨k1, k2, k3, k4⟩ := m3 b hb
          refine ⟨k1, k2, k3, ?_⟩
          rcases k4 with k4 | k4
          · exact Or.inl (List.mem_cons_of_mem _ k4)
          · injection k4 with k4
            exact Or.inl (k4 ▸ List.mem_cons_self r rs)
        · intro r' hr' hok
          rcases List.mem_cons.mp hr' with h | h
          · rw [h]
            exact m1
          · exact m4 r' h hok
      · have hstep : cropStep (a, ob) r = (a, ob) := by
          simp only [cropStep, if_pos hcond]
          rw [if_neg harea]
        rw [hstep]
        obtain ⟨m1, m2, m3, m4⟩ := ih a ob ha hn hs
        refine ⟨m1, m2, ?_, ?_⟩
        · intro b hb
          obtain ⟨k1, k2, k3, k4⟩ := m3 b hb
          exact ⟨k1, k2, k3, k4.imp (List.mem_cons_of_mem _) id⟩
        · intro r' hr' hok
          rcases List.mem_cons.mp hr' with h | h
          · rw [h]
            exact le_trans (le_of_not_lt harea) m1
          · exact m4 r' h hok
    · have hcond : ¬(minAspectRatio < (r.w : ℚ) / (r.h : ℚ) ∧
          (r.w : ℚ) / (r.h : ℚ) < maxAspectRatio) := hr
      have hstep : cropStep (a, ob) r = (a, ob) := by
        simp only [cropStep]
        rw [if_neg hcond]
      rw [hstep]
      obtain ⟨m1, m2, m3, m4⟩ := ih a ob ha hn hs
      refine ⟨m1, m2, ?_, ?_⟩
      · intro b hb
        obtain ⟨k1, k2, k3, k4⟩ := m3 b hb
        exact ⟨k1, k2, k3, k4.imp (List.mem_cons_of_mem _) id⟩
      · intro r' hr' hok
        rcases List.mem_cons.mp hr' with h | h
        · exact absurd (h ▸ hok) hr
        · exact m4 r' h hok

/-- Claim C10: when no red-mask contour rectangle has aspect ratio strictly
between 0.8 and 1.2 together with area above 20, `_crop` silently returns the
original image; otherwise it returns the slice
`img[y+10 : y+h-10, x+10 : x+w-10]` at a qualifying rectangle of maximal area
among the qualifying ones — the box shrunk inward by 10 pixels on each side,
with Python's slice semantics (a bound that goes negative wraps to the end of
the axis). The hypothesis `hh` records that contour bounding rectangles have
positive height, which the Python code presupposes when it divides `w / h`. -/
theorem crop_fallback_or_largest (img : Image) (rects : List Box)
    (hh : ∀ r ∈ rects, 0 < r.h) :
    ((∀ r ∈ rects, ¬(ratioOk r ∧ 20 < r.w * r.h)) → _crop img rects = img) ∧
    (∀ r₀ ∈ rects, ratioOk r₀ ∧ 20 < r₀.w * r₀.h →
      ∃ b, (cropScan rects).2 = some b ∧ b ∈ rects ∧ ratioOk b ∧
        20 < b.w * b.h ∧
        (∀ r ∈ rects, ratioOk r → r.w * r.h ≤ b.w * b.h) ∧
        _crop img rects = sliceImagePy img ((b.y : ℤ) + cropPadding)
          ((b.y : ℤ) + b.h - cropPadding) ((b.x : ℤ) + cropPadding)
          ((b.x : ℤ) + b.w - cropPadding)) := by
  obtain ⟨m1, m2, m3, m4⟩ := cropScan_fold_invariant rects 20 none (le_refl 20)
    (fun _ => rfl) (fun b hb => nomatch hb)
  constructor
  · intro hnone
    rcases hsc : (cropScan rects).2 with _ | b
    · simp [_crop, hsc]
    · obtain ⟨k1, k2, _, k4⟩ := m3 b hsc
      rcases k4 with k4 | k4
      · exact absurd ⟨k1, k2⟩ (hnone b k4)
      · exact nomatch k4
  · intro r₀ hr₀ hq
    rcases hsc : (cropScan rects).2 with _ | b
    · exfalso
      have h20 := (m2 hsc).2
      have := m4 r₀ hr₀ hq.1
      omega
    · obtain ⟨k1, k2, k3, k4⟩ := m3 b hsc
      rcases k4 with k4 | k4
      · refine ⟨b, rfl, k4, k1, k2, ?_, ?_⟩
        · intro r hr hok
          have := m4 r hr hok
          omega
        · simp [_crop, hsc]
      · exact nomatch k4

/-- Witness for C10 on a concrete contour list with one rejected and two
accepted rectangles. -/
theorem crop_fallback_or_largest_witness :
    ∃ b, (cropScan rectsC10).2 = some b ∧ b ∈ rectsC10 ∧
      _crop imgTiny rectsC10 = sliceImagePy imgTiny ((b.y : ℤ) + cropPadding)
        ((b.y : ℤ) + b.h - cropPadding) ((b.x : ℤ) + cropPadding)
        ((b.x : ℤ) + b.w - cropPadding) := by
  obtain ⟨b, h1, h2, _, _, _, h6⟩ :=
    (crop_fallback_or_largest imgTiny rectsC10 (by decide)).2 ⟨2, 3, 40, 40⟩
      (by decide) (by with_unfolding_all decide)
  exact ⟨b, h1, h2, h6⟩

/-- Unfolding of the analysis pipeline past a successful 20-box detection and
a successful orientation correction: only the two threshold checks remain. -/
theorem analyze_after_rotation (dm : DetectorModel) (toXYZ : Pixel → Pixel)
    (img : Image) (thr dthr : ℚ)
    (h20 : (detectedBoxes dm img).length = expectedNumOfBoxes)
    (img2 : Image)
    (hrot : _correct_image_rotation (croppedImage dm img)
      (firstSortedRegions dm toXYZ img) = .ok img2) :
    analyze_low_light_scene_capture dm toXYZ img thr dthr =
      if finalAvg dm toXYZ img img2 < thr then
        .error (.avgLuminance (finalAvg dm toXYZ img img2) thr)
      else if finalDeltaAvg dm toXYZ img img2 < dthr then
        .error (.deltaLuminance (finalDeltaAvg dm toXYZ img img2) dthr)
      else .ok () := by
  simp only [detectedBoxes, croppedImage] at h20
  simp only [firstSortedRegions, detectedBoxes, croppedImage] at hrot
  simp only [analyze_low_light_scene_capture]
  rw [if_neg (by simp [h20])]
  rw [hrot]
  simp only [finalAvg, finalDeltaAvg, finalHilbert, detectedBoxes, croppedImage]

/-- Claim C1: once the pipeline reaches the threshold stage (20 boxes
detected, orientation corrected), it raises a threshold-violation error
exactly when the computed mean of the first 6 traversal entries is strictly
below the luminance threshold or the computed mean of the 5 successive deltas
is strictly below the delta threshold; in particular a mean equal to the
threshold passes (non-strict comparison) and a mean one unit below fails. -/
theorem analyze_threshold_violation_iff (dm : DetectorModel)
    (toXYZ : Pixel → Pixel) (img : Image) (thr dthr : ℚ)
    (h20 : (detectedBoxes dm img).length = expectedNumOfBoxes)
    (img2 : Image)
    (hrot : _correct_image_rotation (croppedImage dm img)
      (firstSortedRegions dm toXYZ img) = .ok img2) :
    ((analyze_low_light_scene_capture dm toXYZ img thr dthr =
        .error (.avgLuminance (finalAvg dm toXYZ img img2) thr) ∨
      analyze_low_light_scene_capture dm toXYZ img thr dthr =
        .error (.deltaLuminance (finalDeltaAvg dm toXYZ img img2) dthr)) ↔
      (finalAvg dm toXYZ img img2 < thr ∨
        finalDeltaAvg dm toXYZ img img2 < dthr)) ∧
    (thr ≤ finalAvg dm toXYZ img img2 →
      dthr ≤ finalDeltaAvg dm toXYZ img img2 →
      analyze_low_light_scene_capture dm toXYZ img thr dthr = .ok ()) ∧
    (finalAvg dm toXYZ img img2 = thr →
      dthr ≤ finalDeltaAvg dm toXYZ img img2 →
      analyze_low_light_scene_capture dm toXYZ img thr dthr = .ok ()) ∧
    (finalAvg dm toXYZ img img2 = thr - 1 →
      analyze_low_light_scene_capture dm toXYZ img thr dthr =
        .error (.avgLuminance (finalAvg dm toXYZ img img2) thr)) := by
  rw [analyze_after_rotation dm toXYZ img thr dthr h20 img2 hrot]
  rcases lt_or_le (finalAvg dm toXYZ img img2) thr with h1 | h1
  · rw [if_pos h1]
    refine ⟨?_, ?_, ?_, ?_⟩
    · simp [h1]
    · intro h
      exact absurd h1 (not_lt.mpr h)
    · intro h
      exact absurd h1 (by rw [h]; exact lt_irrefl thr)
    · intro _
      rfl
  · rw [if_neg (not_lt.mpr h1)]
    rcases lt_or_le (finalDeltaAvg dm toXYZ img img2) dthr with h2 | h2
    · rw [if_pos h2]
      refine ⟨?_, ?_, ?_, ?_⟩
      · simp [h2]
      · intro _ h
        exact absurd h2 (not_lt.mpr h)
      · intro _ h
        exact absurd h2 (not_lt.mpr h)
      · intro h
        rw [h] at h1
        exact absurd h1 (by simp)
    · rw [if_neg (not_lt.mpr h2)]
      refine ⟨?_, fun _ _ => rfl, fun _ _ => rfl, ?_⟩
      · constructor
        · rintro (h | h) <;> exact absurd h (by simp)
        · rintro (h | h)
          · exact absurd h1 (not_le.mpr h)
          · exact absurd h2 (not_le.mpr h)
      · intro h
        rw [h] at h1
        exact absurd h1 (by simp)

/-- Witness for C1 on the concrete pipeline run: the computed mean 0 equals
threshold 0, so the check passes; with threshold 1 the mean is one unit below
and the luminance failure is raised. -/
theorem analyze_threshold_violation_iff_witness :
    analyze_low_light_scene_capture dmEx toXYZId imgEx 0 0 = .ok () ∧
    analyze_low_light_scene_capture dmEx toXYZId imgEx 1 18 =
      .error (.avgLuminance
        (finalAvg dmEx toXYZId imgEx (rotate90CW (croppedImage dmEx imgEx))) 1) := by
  constructor
  · exact (analyze_threshold_violation_iff dmEx toXYZId imgEx 0 0
      (by with_unfolding_all decide) (rotate90CW (croppedImage dmEx imgEx))
      (by with_unfolding_all rfl)).2.2.1 (by with_unfolding_all decide)
      (by with_unfolding_all decide)
  · exact (analyze_threshold_violation_iff dmEx toXYZId imgEx 1 18
      (by with_unfolding_all decide) (rotate90CW (croppedImage dmEx imgEx))
      (by with_unfolding_all rfl)).2.2.2 (by with_unfolding_all decide)

/-- `_correct_image_rotation` only ever raises the corner-ambiguity or
brightest-square-not-found failures. -/
theorem correct_image_rotation_error_kinds (img : Image)
    (regions : List (Box × ℤ)) (e : AnalyzeError)
    (h : _correct_image_rotation img regions = .error e) :
    e = .ambiguousCorners ∨ e = .brightestNotFound := by
  simp only [_correct_image_rotation] at h
  split at h
  · injection h with h'
    exact Or.inl h'.symm
  · split at h <;> simp_all

/-- Claim C2: the analysis raises the detection-count error — reporting the
actual detected count and the expected count 20 — exactly when the number of
detected boxes differs from 20, and it does so before any luminance is
computed (the result is the same for every color conversion); when the count
is 20 no detection-count error is ever raised. -/
theorem analyze_detection_count_iff (dm : DetectorModel)
    (toXYZ toXYZ' : Pixel → Pixel) (img : Image) (thr dthr : ℚ) :
    ((∃ a e, analyze_low_light_scene_capture dm toXYZ img thr dthr =
        .error (.detectionCount a e)) ↔
      (detectedBoxes dm img).length ≠ expectedNumOfBoxes) ∧
    ((detectedBoxes dm img).length ≠ expectedNumOfBoxes →
      analyze_low_light_scene_capture dm toXYZ img thr dthr =
        .error (.detectionCount (detectedBoxes dm img).length
          expectedNumOfBoxes) ∧
      analyze_low_light_scene_capture dm toXYZ img thr dthr =
        analyze_low_light_scene_capture dm toXYZ' img thr dthr) := by
  by_cases h : (detectedBoxes dm img).length = expectedNumOfBoxes
  · have hno : ∀ a e, analyze_low_light_scene_capture dm toXYZ img thr dthr ≠
        .error (.detectionCount a e) := by
      intro a e
      rcases hR : _correct_image_rotation (croppedImage dm img)
          (firstSortedRegions dm toXYZ img) with e' | img2
      · have hkind := correct_image_rotation_error_kinds _ _ _ hR
        have hana : analyze_low_light_scene_capture dm toXYZ img thr dthr =
            .error e' := by
          have h' := h
          simp only [detectedBoxes, croppedImage] at h'
          simp only [firstSortedRegions, detectedBoxes, croppedImage] at hR
          simp only [analyze_low_light_scene_capture]
          rw [if_neg (by simp [h'])]
          rw [hR]
        rw [hana]
        rcases hkind with h' | h' <;> simp [h']
      · rw [analyze_after_rotation dm toXYZ img thr dthr h img2 hR]
        split_ifs <;> simp
    refine ⟨⟨fun hex => ?_, fun hne => absurd h hne⟩, fun hne => absurd h hne⟩
    obtain ⟨a, e, hae⟩ := hex
    exact absurd hae (hno a e)
  · have key : ∀ tz : Pixel → Pixel,
        analyze_low_light_scene_capture dm tz img thr dthr =
          .error (.detectionCount (detectedBoxes dm img).length
            expectedNumOfBoxes) := by
      intro tz
      have h' := h
      simp only [detectedBoxes, croppedImage] at h'
      simp only [analyze_low_light_scene_capture]
      rw [if_pos h']
      simp only [detectedBoxes, croppedImage]
    exact ⟨⟨fun _ => h, fun _ => ⟨_, _, key toXYZ⟩⟩,
      fun _ => ⟨key toXYZ, (key toXYZ).trans (key toXYZ').symm⟩⟩

/-- Witness for C2: a detector finding no contours yields a 0-box count and
the detection-count failure, identically for two different conversions. -/
theorem analyze_detection_count_iff_witness :
    analyze_low_light_scene_capture dmEmpty toXYZId imgTiny 90 18 =
      .error (.detectionCount (detectedBoxes dmEmpty imgTiny).length
        expectedNumOfBoxes) ∧
    analyze_low_light_scene_capture dmEmpty toXYZId imgTiny 90 18 =
      analyze_low_light_scene_capture dmEmpty cvtBGRToXYZPixel imgTiny 90 18 :=
  (analyze_detection_count_iff dmEmpty toXYZId cvtBGRToXYZPixel imgTiny
    90 18).2 (by with_unfolding_all decide)
